import Mathlib

/-!
# gr-download-commands

A shallow embedding of the Polymer element
`polygerrit-ui/app/elements/shared/gr-download-commands/gr-download-commands.js`
and the properties of its login / preference / scheme-selection logic.

Every method of the element is a function from the element's state (`Panel`)
to an `Outcome`: the returned value, the state afterwards and the list of
externally visible effects the method performed, in program order (REST calls,
`preventDefault`, assignments to the notifying property `selectedScheme`).
The asynchronous part (promises handed out by the REST client and settled
later by the event loop) is a step function on a `World`, which pairs the
panel with the log of all effects and the promises still in flight.

What is outside the file under study is kept abstract or minimal:
* `String.prototype.toLowerCase` is a parameter `lower : String → String`;
  `toLowerCaseAscii` is the instance used to evaluate concrete scenarios;
* JavaScript numbers take part only in `===`, so a number is modelled by what
  equality can observe of it (`JSNumber`), without arithmetic;
* the preference record returned by the REST client is typed as the REST
  contract types it: `download_scheme` is a string or absent.
-/

namespace GrDownloadCommands

/-! ## JavaScript values -/

/-- A JavaScript number (an IEEE 754 double) as far as equality can tell: `NaN`,
or a sign together with the 63-bit magnitude field (biased exponent and
fraction). Magnitude `0` is the zero of that sign and magnitude
`0x7FF0000000000000` its infinity; the bit patterns above that are the NaNs,
which JavaScript does not tell apart. -/
inductive JSNumber where
  | nan
  | value (negative : Bool) (magnitude : Fin 9218868437227405313)
  deriving DecidableEq, Repr

/-- Whether a number is `+0` or `-0`. -/
def JSNumber.isZero : JSNumber → Bool
  | .nan => false
  | .value _ m => m.val == 0

/-- Equality of numbers under `===`: `NaN` equals nothing, the two zeros equal
each other, any other two numbers are equal when they are the same double. -/
def JSNumber.equals (x y : JSNumber) : Bool :=
  match x, y with
  | .nan, _ => false
  | _, .nan => false
  | .value s m, .value t n => (m.val == 0 && n.val == 0) || (s == t && m == n)

/-- JavaScript values: `undefined`, `null`, booleans, numbers, big integers,
strings, symbols and object references (a symbol or an object is identified by
its address). -/
inductive JSVal where
  | undefined
  | null
  | bool (b : Bool)
  | num (n : JSNumber)
  | bigint (i : Int)
  | str (s : String)
  | symbol (id : Nat)
  | obj (ref : Nat)
  deriving DecidableEq, Repr

/-- The strict equality operator `a === b`: operands of different types are
never equal; `undefined` and `null` equal only themselves; numbers compare by
`JSNumber.equals`; booleans, big integers and strings compare by value; symbols
and objects compare by reference. -/
def strictEquals (a b : JSVal) : Bool :=
  match a, b with
  | .undefined, .undefined => true
  | .null, .null => true
  | .bool x, .bool y => x == y
  | .num x, .num y => x.equals y
  | .bigint x, .bigint y => x == y
  | .str x, .str y => x == y
  | .symbol x, .symbol y => x == y
  | .obj x, .obj y => x == y
  | _, _ => false

/-- Whether a value is of type number. -/
def JSVal.isNumber : JSVal → Bool
  | .num _ => true
  | _ => false

/-- Whether a value is the number `+0` or `-0`. -/
def JSVal.isZero : JSVal → Bool
  | .num n => n.isZero
  | _ => false

/-- ASCII instance of `toLowerCase`: the letters `A`..`Z` are mapped to
`a`..`z`, every other character is kept. -/
def toLowerCaseAscii (s : String) : String :=
  String.mk (s.data.map Char.toLower)

/-- JavaScript truthiness of a string: only the empty string is falsy. -/
def truthyString (s : String) : Bool :=
  !(s == "")

/-! ## DOM and REST collaborators -/

/-- A DOM element, reduced to its attribute list. -/
structure DomElement where
  attributes : List (String × String)
  deriving DecidableEq, Repr

/-- The DOM call `el.getAttribute(name)`: the attribute's value, or `null` when the
element has no such attribute. -/
def getAttribute (el : DomElement) (name : String) : JSVal :=
  match el.attributes.lookup name with
  | some v => .str v
  | none => .null

/-- The tap event delivered to `_handleSchemeTap`; `localTarget` is
`Polymer.dom(e).localTarget`. -/
structure TapEvent where
  localTarget : DomElement
  deriving DecidableEq, Repr

/-- One entry of the `commands` input property. -/
structure Command where
  title : String
  command : String
  deriving DecidableEq, Repr

/-- The preference record the REST client resolves `getPreferences()` with.
Only `download_scheme` is read by the element; `none` is an absent field. -/
structure Preferences where
  download_scheme : Option String
  deriving DecidableEq, Repr

/-- An object literal: its fields in source order. -/
abbrev JSObject := List (String × JSVal)

/-- Externally visible actions of the element. -/
inductive Effect where
  | preventDefault
  | getLoggedIn
  | getPreferences
  | savePreferences (arg : JSObject)
  | setSelectedScheme (v : JSVal)
  | focusOnCopy
  | unhandledRejection
  deriving DecidableEq, Repr

/-- How a promise ends. -/
inductive Settled (α : Type) where
  | fulfilled (v : α)
  | rejected
  deriving Repr

/-! ## The element -/

/-- The declared properties of the element. `_loggedIn` has the default value
`false`; `selectedScheme` has no default and starts out `undefined` unless the
host binds it. -/
structure Panel where
  commands : List Command
  _loggedIn : Bool
  schemes : List String
  selectedScheme : JSVal
  deriving DecidableEq, Repr

/-- Result of running one method or callback on the element. -/
structure Outcome (α : Type) where
  value : α
  panel : Panel
  effects : List Effect

/-- Source `attached()`: ask the REST client for the login state. The callback
passed to `then` is `attachedThen`. -/
def attached (this : Panel) : Outcome Unit :=
  ⟨(), this, [.getLoggedIn]⟩

/-- Source `focusOnCopy()`: forwarded to the child `gr-copy-clipboard`. -/
def focusOnCopy (this : Panel) : Outcome Unit :=
  ⟨(), this, [.focusOnCopy]⟩

/-- Source `_loggedInChanged(loggedIn)`: returns at once for a false flag,
otherwise issues `getPreferences()`. The callback passed to `then` is
`preferencesThen`. -/
def _loggedInChanged (loggedIn : Bool) (this : Panel) : Outcome Unit :=
  if !loggedIn then ⟨(), this, []⟩
  else ⟨(), this, [.getPreferences]⟩

/-- The assignment `this._loggedIn = v`. Polymer stores the value and runs the
declared observer `_loggedInChanged` when the value differs from the old one. -/
def setLoggedIn (v : Bool) (this : Panel) : Outcome Unit :=
  if v = this._loggedIn then ⟨(), this, []⟩
  else _loggedInChanged v { this with _loggedIn := v }

/-- The arrow function `loggedIn => { this._loggedIn = loggedIn; }` in
`attached`. -/
def attachedThen (loggedIn : Bool) (this : Panel) : Outcome Unit :=
  setLoggedIn loggedIn this

/-- The arrow function `prefs => { if (prefs.download_scheme) ... }` in
`_loggedInChanged`: a truthy (non-empty) stored scheme is lower-cased and
assigned to `selectedScheme`. -/
def preferencesThen (lower : String → String) (prefs : Preferences) (this : Panel) :
    Outcome Unit :=
  match prefs.download_scheme with
  | some s =>
    if truthyString s then
      ⟨(), { this with selectedScheme := .str (lower s) }, [.setSelectedScheme (.str (lower s))]⟩
    else ⟨(), this, []⟩
  | none => ⟨(), this, []⟩

/-- Source `_computeSelected(item, selectedItem)`. -/
def _computeSelected (item selectedItem : JSVal) (this : Panel) : Outcome Bool :=
  ⟨strictEquals item selectedItem, this, []⟩

/-- Source `_handleSchemeTap(e)`. -/
def _handleSchemeTap (e : TapEvent) (this : Panel) : Outcome Unit :=
  let el := e.localTarget
  let this1 : Panel := { this with selectedScheme := getAttribute el "data-scheme" }
  let done : List Effect := [.preventDefault, .setSelectedScheme this1.selectedScheme]
  if this1._loggedIn then
    ⟨(), this1, done ++ [.savePreferences [("download_scheme", this1.selectedScheme)]]⟩
  else ⟨(), this1, done⟩

/-! ## Promises and the event loop -/

/-- A promise with a fulfilment callback only (`p.then(f)`): `f` runs on
fulfilment; a rejection runs nothing and surfaces as an unhandled rejection. -/
def onSettled {α : Type} (r : Settled α) (f : α → Panel → Outcome Unit) (this : Panel) :
    Outcome Unit :=
  match r with
  | .fulfilled v => f v this
  | .rejected => ⟨(), this, [.unhandledRejection]⟩

/-- Whether an effect is a `savePreferences` call. -/
def Effect.isSave : Effect → Bool
  | .savePreferences _ => true
  | _ => false

/-- The element together with the log of its effects and the number of
promises of each REST call that are not settled yet. -/
structure World where
  panel : Panel
  log : List Effect
  pendingLogin : Nat
  pendingPrefs : Nat
  pendingSave : Nat
  deriving DecidableEq, Repr

/-- Record what a method did: the new panel, its effects appended to the log,
one pending promise for every REST call it made. -/
def World.absorb {α : Type} (w : World) (o : Outcome α) : World :=
  { panel := o.panel
    log := w.log ++ o.effects
    pendingLogin := w.pendingLogin + o.effects.count .getLoggedIn
    pendingPrefs := w.pendingPrefs + o.effects.count .getPreferences
    pendingSave := w.pendingSave + o.effects.countP Effect.isSave }

/-- What the event loop can deliver to the element. -/
inductive Event where
  | attached
  | schemeTap (e : TapEvent)
  | loginSettled (r : Settled Bool)
  | preferencesSettled (r : Settled Preferences)
  | saveSettled (r : Settled Unit)

/-- One turn of the event loop. A settlement is possible only while a promise of
that kind is pending. `savePreferences` has no callback attached, so its
settlement runs no code of the element. -/
def step (lower : String → String) (w : World) : Event → Option World
  | .attached => some (w.absorb (attached w.panel))
  | .schemeTap e => some (w.absorb (_handleSchemeTap e w.panel))
  | .loginSettled r =>
    if 0 < w.pendingLogin then
      some ({ w with pendingLogin := w.pendingLogin - 1 }.absorb
        (onSettled r attachedThen w.panel))
    else none
  | .preferencesSettled r =>
    if 0 < w.pendingPrefs then
      some ({ w with pendingPrefs := w.pendingPrefs - 1 }.absorb
        (onSettled r (preferencesThen lower) w.panel))
    else none
  | .saveSettled r =>
    if 0 < w.pendingSave then
      some ({ w with pendingSave := w.pendingSave - 1 }.absorb
        (onSettled r (fun _ this => ⟨(), this, []⟩) w.panel))
    else none

/-- Deliver a sequence of events in order. -/
def run (lower : String → String) (w : World) : List Event → Option World
  | [] => some w
  | ev :: evs => (step lower w ev).bind (fun w1 => run lower w1 evs)

/-- A freshly created element: defaults of the declared properties, nothing
logged, nothing pending. -/
def World.fresh (commands : List Command) (schemes : List String) (selected : JSVal) : World :=
  { panel := { commands := commands, _loggedIn := false, schemes := schemes,
               selectedScheme := selected }
    log := [], pendingLogin := 0, pendingPrefs := 0, pendingSave := 0 }

/-- A value is lower-case when it is not a string or is a string that
lower-casing leaves as it is. -/
def IsLowerCased (lower : String → String) : JSVal → Prop
  | .str s => lower s = s
  | _ => True

/-- The `download_scheme` values passed to `savePreferences` in a list of effects. -/
def savedSchemes : List Effect → List JSVal
  | [] => []
  | .savePreferences arg :: rest =>
    (match arg.lookup "download_scheme" with
     | some v => [v]
     | none => []) ++ savedSchemes rest
  | _ :: rest => savedSchemes rest

/-- The values assigned to `selectedScheme` in a list of effects. -/
def writtenSchemes : List Effect → List JSVal
  | [] => []
  | .setSelectedScheme v :: rest => v :: writtenSchemes rest
  | _ :: rest => writtenSchemes rest

/-! ## Auxiliary lemmas -/

theorem toLower_toLower (c : Char) : Char.toLower (Char.toLower c) = Char.toLower c := by
  by_cases h : 65 ≤ c.toNat ∧ c.toNat ≤ 90
  · obtain ⟨n, hn⟩ : ∃ n, n = c.toNat := ⟨_, rfl⟩
    have hc : c = Char.ofNat n := by rw [hn, Char.ofNat_toNat]
    rw [← hn] at h
    obtain ⟨h1, h2⟩ := h
    subst hc
    interval_cases n <;> decide
  · have hfix : Char.toLower c = c := by
      unfold Char.toLower
      simp only [ge_iff_le]
      rw [if_neg h]
    rw [hfix, hfix]

theorem toLowerCaseAscii_idem (s : String) :
    toLowerCaseAscii (toLowerCaseAscii s) = toLowerCaseAscii s := by
  simp [toLowerCaseAscii, List.map_map, Function.comp_def, toLower_toLower]

theorem JSNumber.equals_iff (x y : JSNumber) :
    x.equals y = true ↔ (x = y ∧ x ≠ .nan) ∨ (x.isZero = true ∧ y.isZero = true) := by
  cases x with
  | nan => simp [JSNumber.equals, JSNumber.isZero]
  | value s m =>
    cases y with
    | nan => simp [JSNumber.equals, JSNumber.isZero]
    | value t n =>
      simp only [JSNumber.equals, JSNumber.isZero, Bool.or_eq_true, Bool.and_eq_true, beq_iff_eq,
        JSNumber.value.injEq, ne_eq, reduceCtorEq, not_false_eq_true, and_true]
      tauto

theorem strictEquals_iff (a b : JSVal) :
    strictEquals a b = true
      ↔ (a = b ∧ a ≠ .num .nan) ∨ (a.isZero = true ∧ b.isZero = true) := by
  cases a <;> cases b <;>
    simp [strictEquals, JSVal.isZero, JSNumber.equals_iff]

theorem strictEquals_iff_of_not_number (a b : JSVal) (h : a.isNumber = false) :
    strictEquals a b = true ↔ a = b := by
  cases a <;> cases b <;> simp_all [strictEquals, JSVal.isNumber]

theorem truthyString_iff (s : String) : truthyString s = true ↔ s ≠ "" := by
  simp [truthyString]

theorem savedSchemes_append (xs ys : List Effect) :
    savedSchemes (xs ++ ys) = savedSchemes xs ++ savedSchemes ys := by
  induction xs with
  | nil => rfl
  | cons x xs ih => cases x <;> simp [savedSchemes, ih]

theorem writtenSchemes_append (xs ys : List Effect) :
    writtenSchemes (xs ++ ys) = writtenSchemes xs ++ writtenSchemes ys := by
  induction xs with
  | nil => rfl
  | cons x xs ih => cases x <;> simp [writtenSchemes, ih]

/-- What one turn of the event loop adds to the log. -/
theorem step_log (lower : String → String) (w w1 : World) (ev : Event)
    (h : step lower w ev = some w1) : ∃ new, w1.log = w.log ++ new := by
  cases ev with
  | attached => simp only [step, Option.some.injEq] at h; subst h; exact ⟨_, rfl⟩
  | schemeTap e => simp only [step, Option.some.injEq] at h; subst h; exact ⟨_, rfl⟩
  | loginSettled r =>
    simp only [step] at h
    split at h
    · simp only [Option.some.injEq] at h; subst h; exact ⟨_, rfl⟩
    · exact absurd h (by simp)
  | preferencesSettled r =>
    simp only [step] at h
    split at h
    · simp only [Option.some.injEq] at h; subst h; exact ⟨_, rfl⟩
    · exact absurd h (by simp)
  | saveSettled r =>
    simp only [step] at h
    split at h
    · simp only [Option.some.injEq] at h; subst h; exact ⟨_, rfl⟩
    · exact absurd h (by simp)

theorem step_preferencesSettled (lower : String → String) (w : World)
    (r : Settled Preferences) (h : 0 < w.pendingPrefs) :
    step lower w (.preferencesSettled r)
      = some ({ w with pendingPrefs := w.pendingPrefs - 1 }.absorb
          (onSettled r (preferencesThen lower) w.panel)) := by
  simp only [step, if_pos h]

theorem step_loginSettled (lower : String → String) (w : World)
    (r : Settled Bool) (h : 0 < w.pendingLogin) :
    step lower w (.loginSettled r)
      = some ({ w with pendingLogin := w.pendingLogin - 1 }.absorb
          (onSettled r attachedThen w.panel)) := by
  simp only [step, if_pos h]

theorem step_saveSettled (lower : String → String) (w : World)
    (r : Settled Unit) (h : 0 < w.pendingSave) :
    step lower w (.saveSettled r)
      = some ({ w with pendingSave := w.pendingSave - 1 }.absorb
          (onSettled r (fun _ this => ⟨(), this, []⟩) w.panel)) := by
  simp only [step, if_pos h]

theorem handleSchemeTap_selected (e : TapEvent) (this : Panel) :
    (_handleSchemeTap e this).panel.selectedScheme
      = getAttribute e.localTarget "data-scheme" := by
  cases h : this._loggedIn <;> simp [_handleSchemeTap, h]

/-- Mounting an element that is not logged in, with a login check that resolves
with true and a preference fetch that resolves with `prefs`: all three turns are
delivered, and the result is the preference callback run on the panel with the
login flag set. -/
theorem run_mount_login_true (lower : String → String) (prefs : Preferences) (v : World)
    (hout : v.panel._loggedIn = false) :
    ∃ v1, run lower v [.attached, .loginSettled (.fulfilled true),
        .preferencesSettled (.fulfilled prefs)] = some v1
      ∧ v1.panel = (preferencesThen lower prefs { v.panel with _loggedIn := true }).panel
      ∧ v1.log = v.log ++ ([.getLoggedIn, .getPreferences]
          ++ (preferencesThen lower prefs { v.panel with _loggedIn := true }).effects) := by
  simp [run, step, World.absorb, attached, onSettled, attachedThen, setLoggedIn,
    _loggedInChanged, hout]

/-! ## Loading the stored preference (C1, C7, C6) -/

/-- C1, as stated, fails for a record whose `download_scheme` field is the empty
string: with schemes `["ssh","http"]`, selected scheme `"ssh"`, a login check
that resolves with true and a preference fetch that resolves with
`{download_scheme: ""}`, the selected scheme is still `"ssh"`, which is not the
lower-cased field value `""`. -/
theorem c1_empty_field_counterexample :
    (run toLowerCaseAscii (World.fresh [⟨"Clone", "git clone ..."⟩] ["ssh", "http"] (.str "ssh"))
        [.attached, .loginSettled (.fulfilled true),
         .preferencesSettled (.fulfilled ⟨some ""⟩)]).map (fun w => w.panel.selectedScheme)
      = some (.str "ssh")
    ∧ JSVal.str "ssh" ≠ JSVal.str (toLowerCaseAscii "") := by
  decide

/-- C1 (amended): for every preference record whose `download_scheme` field is a
non-empty string `s`, (a) in every state in which a preference fetch is in flight,
resolving it with that record sets the selected scheme to `lower s`, whatever it
was before, and (b) from every state with the login flag false, `attached`,
the login check resolving with true and the preference fetch resolving with that
record end with the selected scheme equal to `lower s`. -/
theorem c1_preference_load_selects_lowercased (lower : String → String)
    (prefs : Preferences) (s : String) (w v : World)
    (hfield : prefs.download_scheme = some s) (hne : s ≠ "")
    (hpend : 0 < w.pendingPrefs) (hout : v.panel._loggedIn = false) :
    (∃ w1, step lower w (.preferencesSettled (.fulfilled prefs)) = some w1
        ∧ w1.panel.selectedScheme = .str (lower s))
    ∧ (∃ v1, run lower v [.attached, .loginSettled (.fulfilled true),
          .preferencesSettled (.fulfilled prefs)] = some v1
        ∧ v1.panel.selectedScheme = .str (lower s)) := by
  have ht : truthyString s = true := (truthyString_iff s).2 hne
  constructor
  · refine ⟨_, step_preferencesSettled lower w _ hpend, ?_⟩
    simp [World.absorb, onSettled, preferencesThen, hfield, ht]
  · simp [run, step, World.absorb, attached, onSettled, attachedThen, setLoggedIn,
      _loggedInChanged, preferencesThen, hout, hfield, ht]

/-- Witness for C1: stored `"HTTP"` with schemes `["ssh","http"]` gives `"http"`. -/
theorem c1_preference_load_selects_lowercased_witness :
    toLowerCaseAscii "HTTP" = "http"
    ∧ (∃ w1, step toLowerCaseAscii
          { World.fresh [⟨"Clone", "git clone ..."⟩] ["ssh", "http"] (.str "ssh") with
            pendingPrefs := 1 }
          (.preferencesSettled (.fulfilled ⟨some "HTTP"⟩)) = some w1
        ∧ w1.panel.selectedScheme = .str (toLowerCaseAscii "HTTP"))
    ∧ (∃ v1, run toLowerCaseAscii
          (World.fresh [⟨"Clone", "git clone ..."⟩] ["ssh", "http"] .undefined)
          [.attached, .loginSettled (.fulfilled true),
           .preferencesSettled (.fulfilled ⟨some "HTTP"⟩)] = some v1
        ∧ v1.panel.selectedScheme = .str (toLowerCaseAscii "HTTP")) :=
  ⟨by decide,
   c1_preference_load_selects_lowercased toLowerCaseAscii ⟨some "HTTP"⟩ "HTTP"
     { World.fresh [⟨"Clone", "git clone ..."⟩] ["ssh", "http"] (.str "ssh") with
       pendingPrefs := 1 }
     (World.fresh [⟨"Clone", "git clone ..."⟩] ["ssh", "http"] .undefined)
     rfl (by decide) (by decide) rfl⟩

/-- C6: `_loggedInChanged` with a false flag returns the panel as it is and
performs no effect; the login callback with a false result leaves the selected
scheme as it is and performs no effect; and from every state, `attached` followed
by the login check resolving with false ends with the same selected scheme, a
false login flag, `getLoggedIn` as the only logged effect and no new preference
fetch. -/
theorem c6_login_false_is_inert (lower : String → String) (this : Panel) (w : World) :
    ((_loggedInChanged false this).panel = this ∧ (_loggedInChanged false this).effects = [])
    ∧ ((attachedThen false this).panel.selectedScheme = this.selectedScheme
        ∧ (attachedThen false this).effects = [])
    ∧ (∃ w1, run lower w [.attached, .loginSettled (.fulfilled false)] = some w1
        ∧ w1.panel.selectedScheme = w.panel.selectedScheme
        ∧ w1.panel._loggedIn = false
        ∧ w1.log = w.log ++ [.getLoggedIn]
        ∧ w1.pendingPrefs = w.pendingPrefs) := by
  refine ⟨⟨rfl, rfl⟩, ?_, ?_⟩
  · cases h : this._loggedIn <;> simp [attachedThen, setLoggedIn, _loggedInChanged, h]
  · cases h : w.panel._loggedIn <;>
      simp [run, step, World.absorb, attached, onSettled, attachedThen, setLoggedIn,
        _loggedInChanged, h]

/-- C7: when the fetched record has no `download_scheme` field or an empty one,
the selected scheme is exactly what it was before, and `selectedScheme` is
assigned if and only if the field is a non-empty string. This holds (a) for the
preference callback on every panel, (b) for the event-loop turn that resolves a
pending fetch in every state, and (c) for the whole of `attached`, the login
check resolving with true and the fetch resolving with the record, from every
state whose login flag is false: the run can be delivered, the login flag ends
true, and with an absent or empty field the selected scheme, the commands and
the schemes are unchanged and the only effects are the two REST calls. -/
theorem c7_written_iff_nonempty (lower : String → String) (prefs : Preferences)
    (this : Panel) (w v : World) (hpend : 0 < w.pendingPrefs)
    (hout : v.panel._loggedIn = false) :
    ((writtenSchemes (preferencesThen lower prefs this).effects ≠ []
          ↔ ∃ s, prefs.download_scheme = some s ∧ s ≠ "")
      ∧ ((prefs.download_scheme = none ∨ prefs.download_scheme = some "") →
          (preferencesThen lower prefs this).panel = this
          ∧ (preferencesThen lower prefs this).effects = []))
    ∧ (∃ w1, step lower w (.preferencesSettled (.fulfilled prefs)) = some w1
        ∧ ∃ new, w1.log = w.log ++ new
          ∧ (writtenSchemes new ≠ [] ↔ ∃ s, prefs.download_scheme = some s ∧ s ≠ "")
          ∧ ((prefs.download_scheme = none ∨ prefs.download_scheme = some "") →
              w1.panel = w.panel ∧ new = []))
    ∧ (∃ v1, run lower v [.attached, .loginSettled (.fulfilled true),
          .preferencesSettled (.fulfilled prefs)] = some v1
        ∧ v1.panel._loggedIn = true
        ∧ ∃ new, v1.log = v.log ++ new
          ∧ (writtenSchemes new ≠ [] ↔ ∃ s, prefs.download_scheme = some s ∧ s ≠ "")
          ∧ ((prefs.download_scheme = none ∨ prefs.download_scheme = some "") →
              v1.panel.selectedScheme = v.panel.selectedScheme
              ∧ v1.panel.commands = v.panel.commands
              ∧ v1.panel.schemes = v.panel.schemes
              ∧ new = [.getLoggedIn, .getPreferences])) := by
  have hcb : ∀ p : Panel,
      (writtenSchemes (preferencesThen lower prefs p).effects ≠ []
          ↔ ∃ s, prefs.download_scheme = some s ∧ s ≠ "")
      ∧ ((prefs.download_scheme = none ∨ prefs.download_scheme = some "") →
          (preferencesThen lower prefs p).panel = p
          ∧ (preferencesThen lower prefs p).effects = []) := by
    intro p
    obtain ⟨d⟩ := prefs
    cases d with
    | none => exact ⟨by simp [preferencesThen, writtenSchemes], fun _ => ⟨rfl, rfl⟩⟩
    | some s =>
      by_cases hs : s = ""
      · subst hs
        exact ⟨by simp [preferencesThen, writtenSchemes, truthyString],
          fun _ => ⟨by simp [preferencesThen, truthyString],
            by simp [preferencesThen, truthyString]⟩⟩
      · have ht : truthyString s = true := (truthyString_iff s).2 hs
        refine ⟨by simp [preferencesThen, writtenSchemes, ht, hs], fun h => ?_⟩
        rcases h with h | h
        · exact absurd h (by simp)
        · exact absurd (Option.some.inj h) hs
  refine ⟨hcb this, ?_, ?_⟩
  · refine ⟨_, step_preferencesSettled lower w _ hpend,
      (preferencesThen lower prefs w.panel).effects, rfl, (hcb w.panel).1, fun h => ?_⟩
    exact ⟨((hcb w.panel).2 h).1, ((hcb w.panel).2 h).2⟩
  · obtain ⟨v1, hrun, hpanel, hlog⟩ := run_mount_login_true lower prefs v hout
    refine ⟨v1, hrun, ?_, [.getLoggedIn, .getPreferences]
      ++ (preferencesThen lower prefs { v.panel with _loggedIn := true }).effects, hlog, ?_, ?_⟩
    · rw [hpanel]
      obtain ⟨d⟩ := prefs
      cases d with
      | none => rfl
      | some s => cases ht : truthyString s <;> simp [preferencesThen, ht]
    · rw [writtenSchemes_append]
      simpa [writtenSchemes] using (hcb { v.panel with _loggedIn := true }).1
    · intro h
      obtain ⟨h1, h2⟩ := (hcb { v.panel with _loggedIn := true }).2 h
      rw [hpanel, h1, h2]
      exact ⟨rfl, rfl, rfl, rfl⟩

/-- Witness for C7: a panel with `"ssh"` selected is mounted, the login check
resolves with true and the fetch resolves with a record without the field, and
with an empty field: the selected scheme is still `"ssh"`; the same for one
turn that resolves a fetch in flight. -/
theorem c7_written_iff_nonempty_witness :
    (∃ v1, run toLowerCaseAscii (World.fresh [⟨"Clone", "git clone ..."⟩] ["ssh", "http"] (.str "ssh"))
        [.attached, .loginSettled (.fulfilled true),
         .preferencesSettled (.fulfilled ⟨none⟩)] = some v1
      ∧ v1.panel.selectedScheme = .str "ssh")
    ∧ (∃ v1, run toLowerCaseAscii (World.fresh [⟨"Clone", "git clone ..."⟩] ["ssh", "http"] (.str "ssh"))
        [.attached, .loginSettled (.fulfilled true),
         .preferencesSettled (.fulfilled ⟨some ""⟩)] = some v1
      ∧ v1.panel.selectedScheme = .str "ssh")
    ∧ (∃ w1, step toLowerCaseAscii
          { panel := ⟨[], true, ["ssh", "http"], .str "ssh"⟩,
            log := [.getLoggedIn, .getPreferences],
            pendingLogin := 0, pendingPrefs := 1, pendingSave := 0 }
          (.preferencesSettled (.fulfilled ⟨some ""⟩)) = some w1
      ∧ w1.panel = ⟨[], true, ["ssh", "http"], .str "ssh"⟩) :=
  have hnone := c7_written_iff_nonempty toLowerCaseAscii ⟨none⟩
    ⟨[], true, ["ssh", "http"], .str "ssh"⟩
    { panel := ⟨[], true, ["ssh", "http"], .str "ssh"⟩, log := [.getLoggedIn, .getPreferences],
      pendingLogin := 0, pendingPrefs := 1, pendingSave := 0 }
    (World.fresh [⟨"Clone", "git clone ..."⟩] ["ssh", "http"] (.str "ssh")) (by decide) rfl
  have hempty := c7_written_iff_nonempty toLowerCaseAscii ⟨some ""⟩
    ⟨[], true, ["ssh", "http"], .str "ssh"⟩
    { panel := ⟨[], true, ["ssh", "http"], .str "ssh"⟩, log := [.getLoggedIn, .getPreferences],
      pendingLogin := 0, pendingPrefs := 1, pendingSave := 0 }
    (World.fresh [⟨"Clone", "git clone ..."⟩] ["ssh", "http"] (.str "ssh")) (by decide) rfl
  ⟨hnone.2.2.imp (fun _ hv => ⟨hv.1, by
      obtain ⟨_, _, _, _, _, hsel⟩ := hv
      exact (hsel (Or.inl rfl)).1⟩),
   hempty.2.2.imp (fun _ hv => ⟨hv.1, by
      obtain ⟨_, _, _, _, _, hsel⟩ := hv
      exact (hsel (Or.inr rfl)).1⟩),
   hempty.2.1.imp (fun _ hw => ⟨hw.1, by
      obtain ⟨_, _, _, _, hsel⟩ := hw
      exact (hsel (Or.inr rfl)).1⟩)⟩

/-! ## Selecting a scheme (C3, C4, C5) -/

/-- C3: in every panel state and for every tap event, `_handleSchemeTap` makes a
`savePreferences` call if and only if the login flag is true at that moment; the
number of such calls is one when the flag is true and zero when it is false. -/
theorem c3_save_iff_logged_in (e : TapEvent) (this : Panel) :
    ((∃ arg, Effect.savePreferences arg ∈ (_handleSchemeTap e this).effects)
        ↔ this._loggedIn = true)
    ∧ (_handleSchemeTap e this).effects.countP Effect.isSave
        = (if this._loggedIn then 1 else 0) := by
  cases h : this._loggedIn <;> simp [_handleSchemeTap, h, Effect.isSave, List.countP_cons]

/-- C4: in every panel state, logged in or not, after `_handleSchemeTap` the
selected scheme is what `getAttribute('data-scheme')` returns on the clicked tab,
so it is the tab's identifier whenever the tab carries one; the previous selected
scheme plays no role; the other properties of the panel are untouched. -/
theorem c4_tap_selects_clicked (e : TapEvent) (this : Panel) :
    (_handleSchemeTap e this).panel.selectedScheme = getAttribute e.localTarget "data-scheme"
    ∧ (∀ s, e.localTarget.attributes.lookup "data-scheme" = some s →
        (_handleSchemeTap e this).panel.selectedScheme = .str s)
    ∧ (∀ old, (_handleSchemeTap e { this with selectedScheme := old }).panel.selectedScheme
        = (_handleSchemeTap e this).panel.selectedScheme)
    ∧ (_handleSchemeTap e this).panel._loggedIn = this._loggedIn
    ∧ (_handleSchemeTap e this).panel.schemes = this.schemes
    ∧ (_handleSchemeTap e this).panel.commands = this.commands := by
  cases h : this._loggedIn <;> simp [_handleSchemeTap, h, getAttribute] <;>
    intro s hs <;> simp [hs]

/-- Witness for C4: a tap on the `http` tab while `ssh` is selected. -/
theorem c4_tap_selects_clicked_witness :
    (_handleSchemeTap ⟨⟨[("class", "tab"), ("data-scheme", "http")]⟩⟩
        ⟨[], false, ["ssh", "http"], .str "ssh"⟩).panel.selectedScheme = .str "http" :=
  (c4_tap_selects_clicked ⟨⟨[("class", "tab"), ("data-scheme", "http")]⟩⟩
      ⟨[], false, ["ssh", "http"], .str "ssh"⟩).2.1 "http" (by decide)

/-- C5: while the login flag is true, `_handleSchemeTap` makes exactly one
`savePreferences` call; its argument is the object with the single field
`download_scheme`, whose value is the selected scheme after the click, that is
the clicked tab's identifier. -/
theorem c5_save_argument (e : TapEvent) (this : Panel) (hlogin : this._loggedIn = true) :
    (_handleSchemeTap e this).effects.filter Effect.isSave
      = [.savePreferences [("download_scheme", (_handleSchemeTap e this).panel.selectedScheme)]]
    ∧ (_handleSchemeTap e this).panel.selectedScheme = getAttribute e.localTarget "data-scheme"
    ∧ (_handleSchemeTap e this).effects
      = [.preventDefault, .setSelectedScheme (getAttribute e.localTarget "data-scheme"),
         .savePreferences [("download_scheme", getAttribute e.localTarget "data-scheme")]] := by
  simp [_handleSchemeTap, hlogin, Effect.isSave, List.filter_cons]

/-- Witness for C5: logged in, `ssh` selected, the `http` tab is clicked. -/
theorem c5_save_argument_witness :
    (_handleSchemeTap ⟨⟨[("data-scheme", "http")]⟩⟩
        ⟨[], true, ["ssh", "http"], .str "ssh"⟩).effects.filter Effect.isSave
      = [.savePreferences [("download_scheme", .str "http")]] :=
  (c5_save_argument ⟨⟨[("data-scheme", "http")]⟩⟩ ⟨[], true, ["ssh", "http"], .str "ssh"⟩ rfl).1

/-! ## Tab highlighting (C8) -/

/-- C8, as stated, fails on numbers: `_computeSelected(NaN, NaN)` is false although
the two arguments are the same value, and `_computeSelected(+0, -0)` is true
although they are different values. -/
theorem c8_number_counterexample :
    ((_computeSelected (.num .nan) (.num .nan) ⟨[], false, ["ssh", "http"], .undefined⟩).value
        = false
      ∧ JSVal.num .nan = JSVal.num .nan)
    ∧ ((_computeSelected (.num (.value false 0)) (.num (.value true 0))
          ⟨[], false, ["ssh", "http"], .undefined⟩).value = true
      ∧ JSVal.num (.value false 0) ≠ JSVal.num (.value true 0)) := by
  decide

/-- C8 (amended): `_computeSelected(item, selectedItem)` is `item === selectedItem`.
When `item` is not a number it returns true exactly when the two values are
identical (same primitive value, same symbol or same object reference); `null`
against `undefined` is false in both orders and each of them against itself is
true. For all inputs it returns true exactly when the two values are identical
and not `NaN`, or both are zeros (`+0` or `-0`). The result does not depend on the
panel, the panel is returned as it was and no effect is performed. -/
theorem c8_computeSelected (item selectedItem : JSVal) (this other : Panel) :
    (item.isNumber = false →
        ((_computeSelected item selectedItem this).value = true ↔ item = selectedItem))
    ∧ ((_computeSelected item selectedItem this).value = true
        ↔ (item = selectedItem ∧ item ≠ .num .nan)
          ∨ (item.isZero = true ∧ selectedItem.isZero = true))
    ∧ (_computeSelected .null .undefined this).value = false
    ∧ (_computeSelected .undefined .null this).value = false
    ∧ (_computeSelected .null .null this).value = true
    ∧ (_computeSelected .undefined .undefined this).value = true
    ∧ (_computeSelected item selectedItem other).value
        = (_computeSelected item selectedItem this).value
    ∧ (_computeSelected item selectedItem this).panel = this
    ∧ (_computeSelected item selectedItem this).effects = [] :=
  ⟨strictEquals_iff_of_not_number item selectedItem, strictEquals_iff item selectedItem,
    rfl, rfl, rfl, rfl, rfl, rfl, rfl⟩

/-- Witness for C8: the tab `"http"` against the selected scheme `"http"` is
highlighted, against `"ssh"` it is not. -/
theorem c8_computeSelected_witness :
    (_computeSelected (.str "http") (.str "http") ⟨[], false, ["ssh", "http"], .str "http"⟩).value
        = true
    ∧ ¬ (_computeSelected (.str "http") (.str "ssh") ⟨[], false, ["ssh", "http"], .str "ssh"⟩).value
        = true :=
  ⟨((c8_computeSelected (.str "http") (.str "http") ⟨[], false, ["ssh", "http"], .str "http"⟩
      ⟨[], false, [], .undefined⟩).1 rfl).2 rfl,
   fun h => absurd (((c8_computeSelected (.str "http") (.str "ssh")
      ⟨[], false, ["ssh", "http"], .str "ssh"⟩ ⟨[], false, [], .undefined⟩).1 rfl).1 h)
      (by decide)⟩

/-! ## Rejected REST calls (C9) -/

/-- C9: (a) while a login check is in flight, its rejection leaves the whole panel
(login flag and selected scheme included) as it was, issues no `getPreferences`
and only surfaces as an unhandled rejection; (b) while a preference fetch is in
flight, its rejection leaves the whole panel as it was; (c) on a logged-in panel,
a tap followed by the rejection of the `savePreferences` call it made ends with
the selected scheme still equal to the clicked tab's identifier. -/
theorem c9_rejections_keep_state (lower : String → String) (w1 w2 w3 : World) (e : TapEvent)
    (h1 : 0 < w1.pendingLogin) (h2 : 0 < w2.pendingPrefs)
    (h3 : w3.panel._loggedIn = true) :
    (∃ u, step lower w1 (.loginSettled .rejected) = some u
        ∧ u.panel = w1.panel
        ∧ u.log = w1.log ++ [.unhandledRejection]
        ∧ u.pendingPrefs = w1.pendingPrefs)
    ∧ (∃ u, step lower w2 (.preferencesSettled .rejected) = some u
        ∧ u.panel = w2.panel
        ∧ u.log = w2.log ++ [.unhandledRejection])
    ∧ (∃ u, run lower w3 [.schemeTap e, .saveSettled .rejected] = some u
        ∧ u.panel.selectedScheme = getAttribute e.localTarget "data-scheme"
        ∧ u.panel._loggedIn = true) := by
  refine ⟨⟨_, step_loginSettled lower w1 _ h1, ?_⟩,
    ⟨_, step_preferencesSettled lower w2 _ h2, ?_⟩, ?_⟩
  · simp [World.absorb, onSettled]
  · simp [World.absorb, onSettled]
  · simp [run, step, World.absorb, onSettled, _handleSchemeTap, h3, Effect.isSave,
      List.countP_cons]

/-- Witness for C9: a mounted panel whose login check is rejected, a logged-in
panel whose preference fetch is rejected, and a logged-in panel whose save is
rejected after a tap on `http`. -/
theorem c9_rejections_keep_state_witness :
    (∃ u, step toLowerCaseAscii
          { World.fresh [] ["ssh", "http"] (.str "ssh") with pendingLogin := 1 }
          (.loginSettled .rejected) = some u
        ∧ u.panel = ⟨[], false, ["ssh", "http"], .str "ssh"⟩)
    ∧ (∃ u, run toLowerCaseAscii
          { panel := ⟨[], true, ["ssh", "http"], .str "ssh"⟩, log := [],
            pendingLogin := 0, pendingPrefs := 0, pendingSave := 0 }
          [.schemeTap ⟨⟨[("data-scheme", "http")]⟩⟩, .saveSettled .rejected] = some u
        ∧ u.panel.selectedScheme = .str "http") :=
  have h := c9_rejections_keep_state toLowerCaseAscii
    { World.fresh [] ["ssh", "http"] (.str "ssh") with pendingLogin := 1 }
    { panel := ⟨[], true, ["ssh", "http"], .str "ssh"⟩, log := [.getLoggedIn, .getPreferences],
      pendingLogin := 0, pendingPrefs := 1, pendingSave := 0 }
    { panel := ⟨[], true, ["ssh", "http"], .str "ssh"⟩, log := [],
      pendingLogin := 0, pendingPrefs := 0, pendingSave := 0 }
    ⟨⟨[("data-scheme", "http")]⟩⟩ (by decide) (by decide) rfl
  ⟨h.1.imp (fun _ hu => ⟨hu.1, hu.2.1⟩), h.2.2.imp (fun _ hu => ⟨hu.1, hu.2.1⟩)⟩

/-! ## A late preference load overrides a manual selection (C10) -/

/-- C10: from every state with the login flag false and a login check in flight,
for every clicked tab and every stored non-empty scheme `b`: the tap, then the
login check resolving with true, then the preference fetch resolving with
`{download_scheme: b}` can all be delivered, the selected scheme at the end is
`lower b` (the tapped identifier is overwritten), and the effects of the three
turns contain no `savePreferences` call. -/
theorem c10_late_load_overrides_tap (lower : String → String) (w : World) (e : TapEvent)
    (b : String) (hflag : w.panel._loggedIn = false) (hpend : 0 < w.pendingLogin)
    (hb : b ≠ "") :
    ∃ u, run lower w [.schemeTap e, .loginSettled (.fulfilled true),
          .preferencesSettled (.fulfilled ⟨some b⟩)] = some u
      ∧ u.panel.selectedScheme = .str (lower b)
      ∧ u.log = w.log ++ [.preventDefault,
          .setSelectedScheme (getAttribute e.localTarget "data-scheme"),
          .getPreferences, .setSelectedScheme (.str (lower b))]
      ∧ u.pendingSave = w.pendingSave := by
  have ht : truthyString b = true := (truthyString_iff b).2 hb
  simp [run, step, World.absorb, onSettled, _handleSchemeTap, attachedThen, setLoggedIn,
    _loggedInChanged, preferencesThen, hflag, hpend, ht, Effect.isSave, List.countP_cons]

/-- Witness for C10: the `ssh` tab is tapped before the login check resolves and
the stored preference is `"HTTP"`. -/
theorem c10_late_load_overrides_tap_witness :
    ∃ u, run toLowerCaseAscii
          { World.fresh [] ["ssh", "http"] .undefined with
            log := [.getLoggedIn], pendingLogin := 1 }
          [.schemeTap ⟨⟨[("data-scheme", "ssh")]⟩⟩, .loginSettled (.fulfilled true),
           .preferencesSettled (.fulfilled ⟨some "HTTP"⟩)] = some u
      ∧ u.panel.selectedScheme = .str (toLowerCaseAscii "HTTP") :=
  (c10_late_load_overrides_tap toLowerCaseAscii
    { World.fresh [] ["ssh", "http"] .undefined with log := [.getLoggedIn], pendingLogin := 1 }
    ⟨⟨[("data-scheme", "ssh")]⟩⟩ "HTTP" rfl (by decide) (by decide)).imp
    (fun _ hu => ⟨hu.1, hu.2.1⟩)

/-! ## Lower-casing (C2) -/

/-- What one turn of the event loop writes and saves: when the turn is not a tap
on a tab whose identifier has upper-case letters, every value it assigns to
`selectedScheme` and every `download_scheme` it saves is lower-case, and a
lower-case selected scheme stays lower-case. -/
theorem step_lowercased (lower : String → String) (hidem : ∀ s, lower (lower s) = lower s)
    (w w1 : World) (ev : Event)
    (htap : ∀ e, ev = .schemeTap e → IsLowerCased lower (getAttribute e.localTarget "data-scheme"))
    (h : step lower w ev = some w1) :
    ∃ new, w1.log = w.log ++ new
      ∧ (∀ v ∈ writtenSchemes new, IsLowerCased lower v)
      ∧ (∀ v ∈ savedSchemes new, IsLowerCased lower v)
      ∧ (IsLowerCased lower w.panel.selectedScheme →
          IsLowerCased lower w1.panel.selectedScheme) := by
  cases ev with
  | attached =>
    simp only [step, Option.some.injEq] at h; subst h
    exact ⟨[.getLoggedIn], rfl, by simp [writtenSchemes], by simp [savedSchemes], fun hs => hs⟩
  | schemeTap e =>
    have ha := htap e rfl
    simp only [step, Option.some.injEq] at h; subst h
    refine ⟨(_handleSchemeTap e w.panel).effects, rfl, ?_, ?_, fun _ => ?_⟩
    · cases hl : w.panel._loggedIn <;>
        simp [_handleSchemeTap, hl, writtenSchemes, ha]
    · cases hl : w.panel._loggedIn <;>
        simp [_handleSchemeTap, hl, savedSchemes, ha]
    · rw [← (handleSchemeTap_selected e w.panel)] at ha
      exact ha
  | loginSettled r =>
    simp only [step] at h
    split at h
    · simp only [Option.some.injEq] at h; subst h
      refine ⟨(onSettled r attachedThen w.panel).effects, rfl, ?_, ?_, ?_⟩ <;>
        cases r with
        | rejected => simp [onSettled, writtenSchemes, savedSchemes, World.absorb]
        | fulfilled b =>
          cases b <;> cases hl : w.panel._loggedIn <;>
            simp [onSettled, attachedThen, setLoggedIn, _loggedInChanged, hl, writtenSchemes,
              savedSchemes, World.absorb]
    · exact absurd h (by simp)
  | preferencesSettled r =>
    simp only [step] at h
    split at h
    · simp only [Option.some.injEq] at h; subst h
      refine ⟨(onSettled r (preferencesThen lower) w.panel).effects, rfl, ?_, ?_, ?_⟩ <;>
        cases r with
        | rejected => simp [onSettled, writtenSchemes, savedSchemes, World.absorb]
        | fulfilled prefs =>
          obtain ⟨d⟩ := prefs
          cases d with
          | none => simp [onSettled, preferencesThen, writtenSchemes, savedSchemes, World.absorb]
          | some s =>
            cases ht : truthyString s <;>
              simp [onSettled, preferencesThen, ht, writtenSchemes, savedSchemes, World.absorb,
                IsLowerCased, hidem]
    · exact absurd h (by simp)
  | saveSettled r =>
    simp only [step] at h
    split at h
    · simp only [Option.some.injEq] at h; subst h
      refine ⟨(onSettled r (fun _ this => (⟨(), this, []⟩ : Outcome Unit)) w.panel).effects,
        rfl, ?_, ?_, ?_⟩ <;>
        cases r <;> simp [onSettled, writtenSchemes, savedSchemes, World.absorb]
    · exact absurd h (by simp)

/-- C2, as stated, fails: on a logged-in panel a tap on a tab whose `data-scheme`
is `"HTTP"` assigns `"HTTP"` to `selectedScheme` and passes `"HTTP"` to
`savePreferences`, and `"HTTP"` is not its own lower-casing. -/
theorem c2_uppercase_tap_counterexample :
    writtenSchemes (_handleSchemeTap ⟨⟨[("data-scheme", "HTTP")]⟩⟩
        ⟨[], true, ["ssh", "http"], .str "ssh"⟩).effects = [.str "HTTP"]
    ∧ savedSchemes (_handleSchemeTap ⟨⟨[("data-scheme", "HTTP")]⟩⟩
        ⟨[], true, ["ssh", "http"], .str "ssh"⟩).effects = [.str "HTTP"]
    ∧ (_handleSchemeTap ⟨⟨[("data-scheme", "HTTP")]⟩⟩
        ⟨[], true, ["ssh", "http"], .str "ssh"⟩).panel.selectedScheme = .str "HTTP"
    ∧ ¬ IsLowerCased toLowerCaseAscii (.str "HTTP") := by
  refine ⟨by decide, by decide, by decide, ?_⟩
  simp only [IsLowerCased]
  decide

/-- C2 (amended): for a lower-casing function that is idempotent, along every
sequence of `attached` calls, settlements and scheme-tab clicks in which every
clicked tab's `data-scheme` identifier is lower-case (or missing), every value
assigned to `selectedScheme` and every `download_scheme` value passed to
`savePreferences` equals its own lower-casing, and a selected scheme that was
lower-case at the start is lower-case at the end. -/
theorem c2_lowercase_invariant (lower : String → String)
    (hidem : ∀ s, lower (lower s) = lower s) (evs : List Event) (w w1 : World)
    (htaps : ∀ e, Event.schemeTap e ∈ evs →
      IsLowerCased lower (getAttribute e.localTarget "data-scheme"))
    (hrun : run lower w evs = some w1) :
    ∃ new, w1.log = w.log ++ new
      ∧ (∀ v ∈ writtenSchemes new, IsLowerCased lower v)
      ∧ (∀ v ∈ savedSchemes new, IsLowerCased lower v)
      ∧ (IsLowerCased lower w.panel.selectedScheme →
          IsLowerCased lower w1.panel.selectedScheme) := by
  induction evs generalizing w with
  | nil =>
    simp only [run, Option.some.injEq] at hrun; subst hrun
    exact ⟨[], by simp, by simp [writtenSchemes], by simp [savedSchemes], fun hs => hs⟩
  | cons ev evs ih =>
    simp only [run] at hrun
    cases hstep : step lower w ev with
    | none => simp [hstep] at hrun
    | some w2 =>
      rw [hstep] at hrun
      simp only [Option.some_bind] at hrun
      obtain ⟨n1, hlog1, hw1, hs1, hsel1⟩ :=
        step_lowercased lower hidem w w2 ev
          (fun e he => htaps e (by rw [he]; exact List.mem_cons_self _ _)) hstep
      obtain ⟨n2, hlog2, hw2, hs2, hsel2⟩ :=
        ih w2 (fun e he => htaps e (List.mem_cons_of_mem _ he)) hrun
      refine ⟨n1 ++ n2, by rw [hlog2, hlog1, List.append_assoc], ?_, ?_,
        fun hs => hsel2 (hsel1 hs)⟩
      · intro v hv
        rw [writtenSchemes_append, List.mem_append] at hv
        exact hv.elim (hw1 v) (hw2 v)
      · intro v hv
        rw [savedSchemes_append, List.mem_append] at hv
        exact hv.elim (hs1 v) (hs2 v)

/-- Witness for C2: mount, tap `http`, login resolves with true, tap `ssh` (saved),
the stored `"HTTP"` arrives: everything written or saved is lower-case. -/
theorem c2_lowercase_invariant_witness :
    ∃ w1, run toLowerCaseAscii (World.fresh [] ["ssh", "http"] .undefined)
        [.attached, .schemeTap ⟨⟨[("data-scheme", "http")]⟩⟩, .loginSettled (.fulfilled true),
         .schemeTap ⟨⟨[("data-scheme", "ssh")]⟩⟩,
         .preferencesSettled (.fulfilled ⟨some "HTTP"⟩)] = some w1
      ∧ ∃ new, w1.log = (World.fresh [] ["ssh", "http"] .undefined).log ++ new
        ∧ (∀ v ∈ writtenSchemes new, IsLowerCased toLowerCaseAscii v)
        ∧ (∀ v ∈ savedSchemes new, IsLowerCased toLowerCaseAscii v)
        ∧ (IsLowerCased toLowerCaseAscii (World.fresh [] ["ssh", "http"] .undefined).panel.selectedScheme →
            IsLowerCased toLowerCaseAscii w1.panel.selectedScheme) := by
  have hsome : (run toLowerCaseAscii (World.fresh [] ["ssh", "http"] .undefined)
        [.attached, .schemeTap ⟨⟨[("data-scheme", "http")]⟩⟩, .loginSettled (.fulfilled true),
         .schemeTap ⟨⟨[("data-scheme", "ssh")]⟩⟩,
         .preferencesSettled (.fulfilled ⟨some "HTTP"⟩)]).isSome = true := by decide
  obtain ⟨w1, h1⟩ := Option.isSome_iff_exists.1 hsome
  refine ⟨w1, h1, c2_lowercase_invariant toLowerCaseAscii toLowerCaseAscii_idem _ _ w1 ?_ h1⟩
  intro e he
  simp only [List.mem_cons, Event.schemeTap.injEq, List.mem_singleton, reduceCtorEq, false_or,
    or_false, List.not_mem_nil] at he
  rcases he with he | he <;> subst he
  · show toLowerCaseAscii "http" = "http"
    decide
  · show toLowerCaseAscii "ssh" = "ssh"
    decide

end GrDownloadCommands
